import Mathlib

/-
Verification of the brewing-temperature-monitor query-construction and
result-reshaping engine (Go, gin + InfluxDB) against its specification.

The Go source is shallowly embedded: pure string manipulation is modelled
directly on Lean strings and character lists, the handler control flow as
total functions into explicit outcome inductives, float64 sensor values as
rationals, and map-shaped rows as association lists of key/value pairs.
-/

namespace Brewing

/-- Embedding of helpers.IsInArray (internal/helpers/utils.go): loops over the
array returning true on the first element equal to the probe, false if the
loop finishes. -/
def IsInArray {α : Type} [DecidableEq α] (element : α) (array : List α) : Bool :=
  match array with
  | [] => false
  | el :: rest => if element = el then true else IsInArray element rest

/-- Helper: IsInArray decides list membership. -/
theorem isInArray_eq_true_iff {α : Type} [DecidableEq α] (x : α) (xs : List α) :
    IsInArray x xs = true ↔ x ∈ xs := by
  induction xs with
  | nil => simp [IsInArray]
  | cons a l ih =>
    by_cases h : x = a <;> simp [IsInArray, h, ih]

/-- The handler package's supportedAggregations variable. -/
def supportedAggregations : List String := ["sum", "max", "mean", "min"]

/-- Embedding of Go strings.Split with a single-character separator, on
character lists. Go's Split with a non-empty separator always returns at
least one piece; an empty input yields one empty piece, a trailing
separator yields a trailing empty piece. -/
def splitChar (sep : Char) : List Char → List (List Char)
  | [] => [[]]
  | c :: cs =>
    if c = sep then [] :: splitChar sep cs
    else
      match splitChar sep cs with
      | [] => [[c]]
      | r :: rs => (c :: r) :: rs

/-- Helper: splitChar never returns the empty list (Go Split returns at least
one piece). -/
theorem splitChar_ne_nil (sep : Char) (l : List Char) : splitChar sep l ≠ [] := by
  induction l with
  | nil => simp [splitChar]
  | cons c cs ih =>
    by_cases h : c = sep
    · simp [splitChar, h]
    · cases hsp : splitChar sep cs with
      | nil => exact absurd hsp ih
      | cons r rs => simp [splitChar, h, hsp]

/-- Helper: Go Split produces exactly one piece iff the separator does not
occur in the input. -/
theorem splitChar_length_one_iff (sep : Char) (l : List Char) :
    (splitChar sep l).length = 1 ↔ sep ∉ l := by
  induction l with
  | nil => simp [splitChar]
  | cons c cs ih =>
    by_cases h : c = sep
    · subst h
      have hne := splitChar_ne_nil c cs
      cases hsp : splitChar c cs with
      | nil => exact absurd hsp hne
      | cons r rs => simp [splitChar, hsp]
    · cases hsp : splitChar sep cs with
      | nil => exact absurd hsp (splitChar_ne_nil sep cs)
      | cons r rs =>
        have hiff : rs.length + 1 = 1 ↔ sep ∉ cs := by
          simpa [hsp] using ih
        simp [splitChar, h, hsp, Ne.symm h, ← hiff]

/-- Helper: splitting a list that starts with a separator-free chunk followed
by the separator puts that chunk first. -/
theorem splitChar_append_sep (sep : Char) (l t : List Char) (h : sep ∉ l) :
    splitChar sep (l ++ sep :: t) = l :: splitChar sep t := by
  induction l with
  | nil => simp [splitChar]
  | cons c cs ih =>
    have hc : c ≠ sep := by
      intro hcc
      exact h (by simp [hcc])
    have hcs : sep ∉ cs := fun hm => h (List.mem_cons_of_mem _ hm)
    simp [splitChar, hc, ih hcs]

/-- Embedding of Go strings.Split(s, sep) for the one-character separators
used by the handlers (comma and underscore). -/
def stringsSplit (s : String) (sep : Char) : List String :=
  (splitChar sep s.data).map (fun cs => String.mk cs)

/-- Embedding of strings.Split(key, "_")[0] as used by
executeAndProcessQuery: the chunk of key before its first underscore (the
whole key when it has none). Go Split always returns at least one piece, so
the [0] index is safe; the default of headD is never used. -/
def firstField (key : String) : String :=
  (stringsSplit key '_').headD ""

/-- QueryParams (handlers package): the four query parameters bound from the
request, with their handler defaults already applied by the caller. -/
structure QueryParams where
  Start : String
  Stop : String
  Aggr : String
  AggFreq : String
deriving DecidableEq

/-- models.SensorData: the JSON ingest payload. float64 temperature and
humidity are modelled as rationals, the sampling instant as an integer
timestamp whose zero value stands for Go's zero time.Time. -/
structure SensorData where
  deviceId : String
  temperature : ℚ
  humidity : ℚ
  location : String
  timestampSampled : ℤ
deriving DecidableEq

/-- The InfluxDB point written by PostData: measurement sensor_data, tag
device_id, fields temperature, humidity and location, explicit timestamp. -/
structure Point where
  measurement : String
  device_id : String
  temperature : ℚ
  humidity : ℚ
  location : String
  time : ℤ
deriving DecidableEq

/-- Embedding of gin's ShouldBindJSON against models.SensorData: every field
carries a binding:"required" tag, and go-playground/validator's required
rule fails whenever the bound field holds its type's zero value (empty
string, 0 number, zero time). Binding succeeds exactly when every field is
non-zero. -/
def bindingOK (d : SensorData) : Bool :=
  decide (d.deviceId ≠ "") && decide (d.temperature ≠ 0) && decide (d.humidity ≠ 0) &&
    decide (d.location ≠ "") && decide (d.timestampSampled ≠ 0)

/-- Outcome of the PostData handler. -/
inductive PostOutcome where
  | invalidInput
  | humidityOutOfRange
  | stored (p : Point)
deriving DecidableEq

/-- Embedding of RecordHandler.PostData: bind the JSON body (400 Invalid
input on failure), reject humidity outside [0, 100] (400), otherwise build
the point and hand it to the blocking write API. The store write itself is
an external effect; outcome stored p records that the write of p was
attempted. -/
def postData (d : SensorData) : PostOutcome :=
  if bindingOK d = false then PostOutcome.invalidInput
  else if d.humidity < 0 ∨ d.humidity > 100 then PostOutcome.humidityOutOfRange
  else PostOutcome.stored
    { measurement := "sensor_data", device_id := d.deviceId,
      temperature := d.temperature, humidity := d.humidity,
      location := d.location, time := d.timestampSampled }

/-- A reading whose humidity sits exactly on the lower boundary 0.0 of the
documented valid range, with every other field well-formed. -/
def zeroHumidityReading : SensorData :=
  { deviceId := "sensor_123", temperature := 18.5, humidity := 0,
    location := "Room 1", timestampSampled := 1706745600 }

/-- C10: IsInArray returns true exactly when the probe occurs in the list,
and returns false on the empty list. -/
theorem IsInArray_correct {α : Type} [DecidableEq α] (x : α) (xs : List α) :
    (IsInArray x xs = true ↔ x ∈ xs) ∧ IsInArray x ([] : List α) = false := by
  exact ⟨isInArray_eq_true_iff x xs, rfl⟩

/-- C8: a reading in which a required field holds its zero value — in
particular temperature = 0 or humidity = 0 — is rejected by the binding
step with the 400 Invalid input response, before the humidity range check
or any store write is reached. -/
theorem postData_rejects_zero_required_fields (d : SensorData)
    (h : d.temperature = 0 ∨ d.humidity = 0) :
    postData d = PostOutcome.invalidInput := by
  have hb : bindingOK d = false := by
    rcases h with h | h <;> simp [bindingOK, h]
  simp [postData, hb]

/-- Witness for C8 at a concrete reading with temperature 0. -/
theorem postData_rejects_zero_required_fields_witness :
    postData { deviceId := "sensor_123", temperature := 0, humidity := 55,
               location := "Room 1", timestampSampled := 1706745600 } =
      PostOutcome.invalidInput :=
  postData_rejects_zero_required_fields _ (Or.inl rfl)

/-- C3: the boundary value humidity = 0.0 lies inside the documented
inclusive range [0, 100] — the handler's own range check does not reject
it — yet ingest of such a reading fails with the binding-stage 400 Invalid
input response and no store write occurs, because the required binding on
Humidity treats the zero value as missing. -/
theorem zero_humidity_rejected_at_binding :
    postData zeroHumidityReading = PostOutcome.invalidInput ∧
    ¬ (zeroHumidityReading.humidity < 0 ∨ zeroHumidityReading.humidity > 100) ∧
    (∀ p : Point, postData zeroHumidityReading ≠ PostOutcome.stored p) := by
  refine ⟨?_, ?_, ?_⟩
  · simp [zeroHumidityReading, postData, bindingOK]
  · norm_num [zeroHumidityReading]
  · intro p
    simp [zeroHumidityReading, postData, bindingOK]

/-- One WriteString step of RecordHandler.buildAggregatedQuery, as an
explicit plan segment: the base filter (scope, range, restriction to the
temperature and humidity fields), the single-aggregation stage-plus-pivot
template, one per-function windowed-aggregate stage of the
multi-aggregation branch (renaming its output fields with the function
prefix), or the closing union-then-pivot template. -/
inductive Seg where
  | base (bucket start stop deviceID : String)
  | single (fn freq : String)
  | agg (fn freq : String)
  | unionPivot (fns : List String)
deriving DecidableEq

/-- True exactly on base segments. -/
def Seg.isBase : Seg → Bool
  | Seg.base _ _ _ _ => true
  | _ => false

/-- Embedding of RecordHandler.buildAggregatedQuery's control flow: write
the base filter, split Aggr on commas, then either the single-aggregation
template (when the split has exactly one piece) or one stage per piece
followed by the union/pivot template. The segments appear in the order the
Go code writes them to the strings.Builder. -/
def buildAggregatedQueryPlan (bucket deviceID : String) (params : QueryParams) : List Seg :=
  let aggrFunctions := stringsSplit params.Aggr ','
  [Seg.base bucket params.Start params.Stop deviceID] ++
    (if aggrFunctions.length = 1 then
      [Seg.single (aggrFunctions.headD "") params.AggFreq]
    else
      aggrFunctions.map (fun f => Seg.agg f params.AggFreq) ++
        [Seg.unionPivot aggrFunctions])

/-- Renders one segment to the exact Flux text of the corresponding Go
fmt.Sprintf template (tabs and newlines of the Go raw string literals
included; the Flux braces are written with character escapes). -/
def renderSeg : Seg → String
  | Seg.base bucket start stop deviceID =>
      "\n\t\tdata = from(bucket: \"" ++ bucket ++ "\")\n\t\t\t|> range(start: " ++ start ++
        ", stop: " ++ stop ++ ")\n\t\t\t|> filter(fn: (r) => r._measurement == \"sensor_data\")" ++
        "\n\t\t\t|> filter(fn: (r) => r[\"device_id\"] == \"" ++ deviceID ++ "\")" ++
        "\n\t\t\t|> filter(fn: (r) => r._field == \"temperature\" or r._field == \"humidity\")\n\t"
  | Seg.single fn freq =>
      "\n\t\t\t" ++ fn ++ "_data = data\n\t\t\t\t|> aggregateWindow(every: " ++ freq ++
        ", fn: " ++ fn ++ ", createEmpty: false)\n\t\t\t\t|> set(key: \"_aggregate\", value: \"" ++
        fn ++ "\")\n\t\t\t\t|> map(fn: (r) => (\x7b r with _field: \"" ++ fn ++
        "_$\x7br._field\x7d\" \x7d))\n\t\t\t" ++ fn ++
        "_data\n\t\t\t\t|> pivot(rowKey: [\"_time\"], columnKey: [\"_field\"], valueColumn: \"_value\")\n\t\t"
  | Seg.agg fn freq =>
      "\n\t\t\t\t" ++ fn ++ "_data = data\n\t\t\t\t\t|> aggregateWindow(every: " ++ freq ++
        ", fn: " ++ fn ++ ", createEmpty: false)\n\t\t\t\t\t|> set(key: \"_aggregate\", value: \"" ++
        fn ++ "\")\n\t\t\t\t\t|> map(fn: (r) => (\x7b r with _field: \"" ++ fn ++
        "_$\x7br._field\x7d\" \x7d))\n\t\t\t"
  | Seg.unionPivot fns =>
      "\n\t\t\tunion(tables: [" ++ (String.intercalate "_data," fns ++ "_data") ++
        "])\n\t\t\t\t|> pivot(rowKey: [\"_time\"], columnKey: [\"_field\"], valueColumn: \"_value\")\n\t\t"

/-- The query string built by RecordHandler.buildAggregatedQuery: the
concatenation, in order, of the rendered segments the Go code writes to its
strings.Builder. -/
def buildAggregatedQuery (bucket deviceID : String) (params : QueryParams) : String :=
  String.join ((buildAggregatedQueryPlan bucket deviceID params).map renderSeg)

/-- The raw (no-aggregation) device query template of
GetDataFromDeviceByID: range filter, measurement filter, device filter,
pivot to one row per timestamp. -/
def rawDeviceQuery (bucket start stop deviceId : String) : String :=
  "\n\t\t\tfrom(bucket: \"" ++ bucket ++ "\")\n\t\t\t|> range(start: " ++ start ++
    ", stop: " ++ stop ++ ")\n\t\t\t|> filter(fn: (r) => r._measurement == \"sensor_data\")" ++
    "\n\t\t\t|> filter(fn: (r) => r[\"device_id\"] == \"" ++ deviceId ++ "\")" ++
    "\n\t\t\t|> pivot(rowKey:[\"_time\"], columnKey: [\"_field\"], valueColumn: \"_value\")\n\t\t"

/-- Outcome of the GetDataFromDeviceByID handler: either an early 400
response, or the query string handed to executeAndProcessQuery. -/
inductive HandlerOutcome where
  | badRequest (msg : String)
  | queried (query : String)
deriving DecidableEq

/-- Embedding of RecordHandler.GetDataFromDeviceByID after query-parameter
binding (binding of the four optional string parameters cannot fail on
string inputs; defaults are already applied in params): the handler reads
deviceId from the path, and with an empty Aggr builds the raw pivot query,
otherwise the aggregated query; either way the query is executed. The Go
function contains no emptiness check on deviceId and no validation of
aggregation tokens. -/
def getDataFromDeviceByID (bucket deviceId : String) (params : QueryParams) : HandlerOutcome :=
  if params.Aggr = "" then
    HandlerOutcome.queried (rawDeviceQuery bucket params.Start params.Stop deviceId)
  else
    HandlerOutcome.queried (buildAggregatedQuery bucket deviceId params)

/-- Go map lookup values[k] over a row modelled as an association list. -/
def lookupVal {V : Type} (values : List (String × V)) (k : String) : Option V :=
  (values.find? (fun kv => kv.1 = k)).map (fun kv => kv.2)

/-- Embedding of the record-shaping loop of
RecordHandler.executeAndProcessQuery, for one row: the record gets
timestamp from _time and device_id from device_id, then every key of the
row whose chunk before the first underscore is in supportedAggregations is
copied through; nothing else is. The row is an association list with the
distinct keys of the Go map; Go's random map iteration order only permutes
the copied entries, which leaves the set of produced fields unchanged. -/
def shapeRecord {V : Type} (values : List (String × V)) : List (String × Option V) :=
  ("timestamp", lookupVal values "_time") ::
    ("device_id", lookupVal values "device_id") ::
    (values.filter (fun kv => IsInArray (firstField kv.1) supportedAggregations)).map
      (fun kv => (kv.1, some kv.2))

/-- The pivoted store row for the spec's scenario reading (device
sensor_123, temperature 18.5, humidity 55.0, location Room 1) as returned
by the raw device query: the pivot leaves the annotation columns, the tag
column device_id and one column per pivoted field. Values are carried as
strings; the shaper never inspects them. -/
def rawPivotRow : List (String × String) :=
  [("result", "_result"), ("table", "0"), ("_start", "2024-02-01T00:00:00Z"),
   ("_stop", "2024-02-02T00:00:00Z"), ("_time", "2024-02-01T00:00:00Z"),
   ("_measurement", "sensor_data"), ("device_id", "sensor_123"),
   ("temperature", "18.5"), ("humidity", "55.0"), ("location", "Room 1")]

/-- C1: the raw device query for the scenario reading does reach the store,
but GetDataFromDeviceByID routes its rows through executeAndProcessQuery,
whose prefix filter keeps only function-prefixed fields: the output record
for the scenario row carries exactly timestamp and device_id, and the bare
temperature, humidity and location fields are dropped. -/
theorem raw_device_query_drops_bare_fields :
    getDataFromDeviceByID "brewing" "sensor_123"
        { Start := "2024-02-01T00:00:00Z", Stop := "2024-02-02T00:00:00Z",
          Aggr := "", AggFreq := "1d" } =
      HandlerOutcome.queried
        (rawDeviceQuery "brewing" "2024-02-01T00:00:00Z" "2024-02-02T00:00:00Z" "sensor_123") ∧
    (shapeRecord rawPivotRow).map Prod.fst = ["timestamp", "device_id"] ∧
    "temperature" ∉ (shapeRecord rawPivotRow).map Prod.fst ∧
    "humidity" ∉ (shapeRecord rawPivotRow).map Prod.fst ∧
    "location" ∉ (shapeRecord rawPivotRow).map Prod.fst := by
  refine ⟨rfl, by decide, by decide, by decide, by decide⟩

/-- C2 counterexample: with the unsupported aggregation token median the
handler still constructs the aggregated query and hands it to the
executor; no rejection of any kind happens before query construction. -/
theorem invalid_token_query_still_constructed :
    IsInArray "median" supportedAggregations = false ∧
    getDataFromDeviceByID "brewing" "sensor_123"
        { Start := "-30d", Stop := "2024-02-02T00:00:00Z", Aggr := "median", AggFreq := "1d" } =
      HandlerOutcome.queried
        (buildAggregatedQuery "brewing" "sensor_123"
          { Start := "-30d", Stop := "2024-02-02T00:00:00Z", Aggr := "median", AggFreq := "1d" }) := by
  exact ⟨rfl, rfl⟩

/-- C2 amended: the handler performs no validation of aggregation tokens:
for every non-empty Aggr string — whatever tokens it holds, supported or
not — query construction proceeds and the built aggregated query is
executed. -/
theorem aggregated_query_always_constructed (bucket deviceId : String) (params : QueryParams)
    (h : params.Aggr ≠ "") :
    getDataFromDeviceByID bucket deviceId params =
      HandlerOutcome.queried (buildAggregatedQuery bucket deviceId params) := by
  simp [getDataFromDeviceByID, h]

/-- Witness for the amended C2 at the unsupported token median. -/
theorem aggregated_query_always_constructed_witness :
    getDataFromDeviceByID "brewing" "dev9"
        { Start := "-30d", Stop := "now()", Aggr := "median", AggFreq := "1h" } =
      HandlerOutcome.queried
        (buildAggregatedQuery "brewing" "dev9"
          { Start := "-30d", Stop := "now()", Aggr := "median", AggFreq := "1h" }) :=
  aggregated_query_always_constructed "brewing" "dev9"
    { Start := "-30d", Stop := "now()", Aggr := "median", AggFreq := "1h" } (by decide)

/-- C6: plan construction is a deterministic function of the device id, the
bucket and the four query parameters: two QueryParams agreeing on start,
stop, aggregation list and window size yield the same segment list and the
same query text. -/
theorem plan_construction_deterministic (bucket deviceId : String) (p q : QueryParams)
    (h1 : p.Start = q.Start) (h2 : p.Stop = q.Stop) (h3 : p.Aggr = q.Aggr)
    (h4 : p.AggFreq = q.AggFreq) :
    buildAggregatedQueryPlan bucket deviceId p = buildAggregatedQueryPlan bucket deviceId q ∧
    buildAggregatedQuery bucket deviceId p = buildAggregatedQuery bucket deviceId q := by
  obtain ⟨ps, pt, pa, pf⟩ := p
  obtain ⟨qs, qt, qa, qf⟩ := q
  cases h1; cases h2; cases h3; cases h4
  exact ⟨rfl, rfl⟩

/-- Witness for C6 at two identical concrete parameter records. -/
theorem plan_construction_deterministic_witness :
    buildAggregatedQueryPlan "brewing" "sensor_123"
        { Start := "-30d", Stop := "now()", Aggr := "mean,max", AggFreq := "1d" } =
      buildAggregatedQueryPlan "brewing" "sensor_123"
        { Start := "-30d", Stop := "now()", Aggr := "mean,max", AggFreq := "1d" } ∧
    buildAggregatedQuery "brewing" "sensor_123"
        { Start := "-30d", Stop := "now()", Aggr := "mean,max", AggFreq := "1d" } =
      buildAggregatedQuery "brewing" "sensor_123"
        { Start := "-30d", Stop := "now()", Aggr := "mean,max", AggFreq := "1d" } :=
  plan_construction_deterministic "brewing" "sensor_123" _ _ rfl rfl rfl rfl

/-- C7: GetDataFromDeviceByID contains no emptiness check on deviceId —
unlike the location handler, and despite its own swagger annotation
promising 400 on a missing deviceId. With an empty deviceId the handler
builds the raw query filtering on the empty device id and executes it
against the store instead of answering 400. -/
theorem empty_deviceId_not_rejected :
    getDataFromDeviceByID "brewing" ""
        { Start := "-30d", Stop := "2024-02-02T00:00:00Z", Aggr := "", AggFreq := "1d" } =
      HandlerOutcome.queried (rawDeviceQuery "brewing" "-30d" "2024-02-02T00:00:00Z" "") ∧
    ∀ msg : String,
      getDataFromDeviceByID "brewing" ""
          { Start := "-30d", Stop := "2024-02-02T00:00:00Z", Aggr := "", AggFreq := "1d" } ≠
        HandlerOutcome.badRequest msg := by
  refine ⟨rfl, ?_⟩
  intro msg h
  simp [getDataFromDeviceByID] at h

/-- Helper: none of the per-function stages of the multi-aggregation branch
is a base segment. -/
theorem filter_isBase_map_agg (fns : List String) (freq : String) :
    (fns.map (fun f => Seg.agg f freq)).filter Seg.isBase = [] := by
  induction fns with
  | nil => rfl
  | cons a l ih => simp [Seg.isBase, ih]

/-- Helper: String.join of a list with a first and a last element
concatenates around the join of the middle. -/
theorem join_cons_append_singleton (a u : String) (l : List String) :
    String.join (a :: (l ++ [u])) = a ++ String.join l ++ u := by
  apply String.ext
  simp

/-- C5: with more than one requested aggregation function, the built plan
is the base filter (scope, range, restriction to the temperature and
humidity fields) exactly once, then one windowed-aggregate stage per
requested function in request order — each renaming its output fields with
that function's prefix — then the union of all the stages followed by the
pivot to one row per timestamp; the query text is the corresponding
concatenation. -/
theorem multi_aggregation_plan_shape (bucket deviceId : String) (p : QueryParams)
    (h : 1 < (stringsSplit p.Aggr ',').length) :
    buildAggregatedQueryPlan bucket deviceId p =
      Seg.base bucket p.Start p.Stop deviceId ::
        ((stringsSplit p.Aggr ',').map (fun f => Seg.agg f p.AggFreq) ++
          [Seg.unionPivot (stringsSplit p.Aggr ',')]) ∧
    ((buildAggregatedQueryPlan bucket deviceId p).filter Seg.isBase).length = 1 ∧
    buildAggregatedQuery bucket deviceId p =
      renderSeg (Seg.base bucket p.Start p.Stop deviceId) ++
        String.join ((stringsSplit p.Aggr ',').map (fun f => renderSeg (Seg.agg f p.AggFreq))) ++
        renderSeg (Seg.unionPivot (stringsSplit p.Aggr ',')) := by
  have hne : ¬ ((stringsSplit p.Aggr ',').length = 1) := by omega
  have hplan : buildAggregatedQueryPlan bucket deviceId p =
      Seg.base bucket p.Start p.Stop deviceId ::
        ((stringsSplit p.Aggr ',').map (fun f => Seg.agg f p.AggFreq) ++
          [Seg.unionPivot (stringsSplit p.Aggr ',')]) := by
    simp [buildAggregatedQueryPlan, hne]
  refine ⟨hplan, ?_, ?_⟩
  · simp [hplan, Seg.isBase, filter_isBase_map_agg]
  · rw [buildAggregatedQuery, hplan]
    rw [List.map_cons, List.map_append, List.map_map]
    rw [show ([Seg.unionPivot (stringsSplit p.Aggr ',')].map renderSeg) =
          [renderSeg (Seg.unionPivot (stringsSplit p.Aggr ','))] from rfl]
    exact join_cons_append_singleton _ _ _

/-- Witness for C5 at the spec's aggr=mean,max scenario. -/
theorem multi_aggregation_plan_shape_witness :
    buildAggregatedQueryPlan "brewing" "sensor_123"
        { Start := "-30d", Stop := "now()", Aggr := "mean,max", AggFreq := "1d" } =
      Seg.base "brewing" "-30d" "now()" "sensor_123" ::
        ((stringsSplit "mean,max" ',').map (fun f => Seg.agg f "1d") ++
          [Seg.unionPivot (stringsSplit "mean,max" ',')]) ∧
    ((buildAggregatedQueryPlan "brewing" "sensor_123"
        { Start := "-30d", Stop := "now()", Aggr := "mean,max", AggFreq := "1d" }).filter
      Seg.isBase).length = 1 ∧
    buildAggregatedQuery "brewing" "sensor_123"
        { Start := "-30d", Stop := "now()", Aggr := "mean,max", AggFreq := "1d" } =
      renderSeg (Seg.base "brewing" "-30d" "now()" "sensor_123") ++
        String.join ((stringsSplit "mean,max" ',').map (fun f => renderSeg (Seg.agg f "1d"))) ++
        renderSeg (Seg.unionPivot (stringsSplit "mean,max" ',')) :=
  multi_aggregation_plan_shape "brewing" "sensor_123"
    { Start := "-30d", Stop := "now()", Aggr := "mean,max", AggFreq := "1d" } (by decide)

/-- True exactly on plans of the single-aggregation shape: the base filter
followed by the combined stage-plus-pivot segment and nothing else. -/
def isSingleAggShape : List Seg → Bool
  | [Seg.base _ _ _ _, Seg.single _ _] => true
  | _ => false

/-- Helper: a plan whose second segment is a per-function stage of the
multi-aggregation branch is not of the single-aggregation shape. -/
theorem isSingleAggShape_cons_agg (x : Seg) (f fr : String) (l : List Seg) :
    isSingleAggShape (x :: Seg.agg f fr :: l) = false := by
  cases x <;> cases l <;> rfl

/-- C9: for a non-empty aggr string the single-aggregation query shape is
built exactly when the string contains no comma, and the trailing-comma
string mean, takes the multi-aggregation branch, whose plan contains a
windowed-aggregate stage for the empty function name. -/
theorem single_branch_iff_no_comma (bucket deviceId : String) (p : QueryParams)
    (h : p.Aggr ≠ "") :
    (isSingleAggShape (buildAggregatedQueryPlan bucket deviceId p) = true ↔
      ',' ∉ p.Aggr.data) ∧
    Seg.agg "" "1d" ∈ buildAggregatedQueryPlan "brewing" "sensor_123"
      { Start := "-30d", Stop := "now()", Aggr := "mean,", AggFreq := "1d" } := by
  refine ⟨?_, by decide⟩
  by_cases hc : (stringsSplit p.Aggr ',').length = 1
  · have hmem : ',' ∉ p.Aggr.data := by
      refine (splitChar_length_one_iff ',' p.Aggr.data).mp ?_
      simpa [stringsSplit] using hc
    have hplan : buildAggregatedQueryPlan bucket deviceId p =
        [Seg.base bucket p.Start p.Stop deviceId,
         Seg.single ((stringsSplit p.Aggr ',').headD "") p.AggFreq] := by
      simp [buildAggregatedQueryPlan, hc]
    rw [hplan]
    simpa [isSingleAggShape] using hmem
  · have hmem : ',' ∈ p.Aggr.data := by
      by_contra hnot
      exact hc (by
        simpa [stringsSplit] using (splitChar_length_one_iff ',' p.Aggr.data).mpr hnot)
    obtain ⟨f1, f2, t, hfns⟩ :
        ∃ f1 f2 t, stringsSplit p.Aggr ',' = f1 :: f2 :: t := by
      cases hfl : stringsSplit p.Aggr ',' with
      | nil =>
        have : (splitChar ',' p.Aggr.data).map (fun cs => String.mk cs) = [] := hfl
        simp [splitChar_ne_nil ',' p.Aggr.data] at this
      | cons a l =>
        cases l with
        | nil => exact absurd (by simp [hfl]) hc
        | cons b m => exact ⟨a, b, m, rfl⟩
    have hplan : buildAggregatedQueryPlan bucket deviceId p =
        Seg.base bucket p.Start p.Stop deviceId ::
          Seg.agg f1 p.AggFreq ::
            ((f2 :: t).map (fun f => Seg.agg f p.AggFreq) ++
              [Seg.unionPivot (stringsSplit p.Aggr ',')]) := by
      simp [buildAggregatedQueryPlan, hc, hfns]
    rw [hplan, isSingleAggShape_cons_agg]
    simp [hmem]

/-- Witness for C9 at the comma-free string mean. -/
theorem single_branch_iff_no_comma_witness :
    (isSingleAggShape (buildAggregatedQueryPlan "brewing" "sensor_123"
        { Start := "-30d", Stop := "now()", Aggr := "mean", AggFreq := "1d" }) = true ↔
      ',' ∉ "mean".data) ∧
    Seg.agg "" "1d" ∈ buildAggregatedQueryPlan "brewing" "sensor_123"
      { Start := "-30d", Stop := "now()", Aggr := "mean,", AggFreq := "1d" } :=
  single_branch_iff_no_comma "brewing" "sensor_123"
    { Start := "-30d", Stop := "now()", Aggr := "mean", AggFreq := "1d" } (by decide)

/-- The field name produced by the Flux rename map of an aggregation stage:
function name, underscore, metric name (for example mean_temperature). -/
def fnKey (f m : String) : String :=
  f ++ "_" ++ m

/-- Helper: no supported aggregation function name contains an underscore. -/
theorem supported_no_underscore :
    ∀ f ∈ supportedAggregations, '_' ∉ f.data := by
  decide

/-- Helper: the chunk before the first underscore of a renamed aggregation
field is the function name, provided the function name itself is
underscore-free. -/
theorem firstField_fnKey (f m : String) (h : '_' ∉ f.data) :
    firstField (fnKey f m) = f := by
  have hdata : (fnKey f m).data = f.data ++ '_' :: m.data := by
    simp [fnKey, String.data_append]
  rw [firstField, stringsSplit, hdata, splitChar_append_sep '_' f.data m.data h]
  rfl

/-- C4 amended: for a store row carrying exactly the renamed cross-product
fields of the requested (supported) functions with temperature and
humidity, plus any internal columns none of whose first underscore chunks
is a supported function name, the shaped record's fields are exactly
timestamp, device_id (snake case, not deviceId) and the
function-by-metric cross-product keys. -/
theorem shaped_record_fields_exact (internal : List (String × String)) (fns : List String)
    (vT vH : String → String)
    (hint : ∀ kv ∈ internal, IsInArray (firstField kv.1) supportedAggregations = false)
    (hfns : ∀ f ∈ fns, IsInArray f supportedAggregations = true) :
    (shapeRecord (internal ++
        fns.flatMap (fun f => [(fnKey f "temperature", vT f), (fnKey f "humidity", vH f)]))).map
      Prod.fst =
      "timestamp" :: "device_id" ::
        fns.flatMap (fun f => [fnKey f "temperature", fnKey f "humidity"]) := by
  have hfilter_int :
      internal.filter (fun kv => IsInArray (firstField kv.1) supportedAggregations) = [] := by
    refine List.filter_eq_nil_iff.mpr ?_
    intro kv hkv
    simp [hint kv hkv]
  have hpref : ∀ f ∈ fns, ∀ m : String,
      IsInArray (firstField (fnKey f m)) supportedAggregations = true := by
    intro f hf m
    have hmem : f ∈ supportedAggregations :=
      (isInArray_eq_true_iff f supportedAggregations).mp (hfns f hf)
    rw [firstField_fnKey f m (supported_no_underscore f hmem)]
    exact hfns f hf
  have hfilter_cross :
      (fns.flatMap (fun f => [(fnKey f "temperature", vT f), (fnKey f "humidity", vH f)])).filter
          (fun kv => IsInArray (firstField kv.1) supportedAggregations) =
        fns.flatMap (fun f => [(fnKey f "temperature", vT f), (fnKey f "humidity", vH f)]) := by
    refine List.filter_eq_self.mpr ?_
    intro kv hkv
    simp only [List.mem_flatMap, List.mem_cons, List.mem_singleton] at hkv
    obtain ⟨f, hf, hkv⟩ := hkv
    rcases hkv with h | h | h
    · subst h; simpa using hpref f hf "temperature"
    · subst h; simpa using hpref f hf "humidity"
    · cases h
  rw [shapeRecord, List.filter_append, hfilter_int, hfilter_cross]
  simp [List.map_flatMap]

/-- A legitimately shaped store row of the spec's aggr=mean,max scenario:
annotation and tag columns plus the four renamed aggregate columns, as the
union-then-pivot query returns them. -/
def meanMaxRow : List (String × String) :=
  [("result", "_result"), ("table", "0"), ("_start", "2024-02-01T00:00:00Z"),
   ("_stop", "2024-02-02T00:00:00Z"), ("_time", "2024-02-02T00:00:00Z"),
   ("_measurement", "sensor_data"), ("device_id", "sensor_123"), ("_aggregate", "max"),
   ("mean_temperature", "18.5"), ("mean_humidity", "55.0"),
   ("max_temperature", "18.5"), ("max_humidity", "55.0")]

/-- C4 counterexample: on a legitimately shaped aggregated row the output
record's entity field is named device_id, not deviceId as the claim
states, while the cross-product fields are present. -/
theorem shaped_record_uses_snake_case_device_id :
    "deviceId" ∉ (shapeRecord meanMaxRow).map Prod.fst ∧
    "device_id" ∈ (shapeRecord meanMaxRow).map Prod.fst ∧
    "mean_temperature" ∈ (shapeRecord meanMaxRow).map Prod.fst ∧
    "max_humidity" ∈ (shapeRecord meanMaxRow).map Prod.fst := by
  decide

/-- Witness for the amended C4 at the mean,max scenario row. -/
theorem shaped_record_fields_exact_witness :
    (shapeRecord
        ([("result", "_result"), ("table", "0"), ("_start", "2024-02-01T00:00:00Z"),
          ("_stop", "2024-02-02T00:00:00Z"), ("_time", "2024-02-02T00:00:00Z"),
          ("_measurement", "sensor_data"), ("device_id", "sensor_123"),
          ("_aggregate", "max")] ++
          (["mean", "max"].flatMap
            (fun f => [(fnKey f "temperature", (fun _ => "18.5") f),
                       (fnKey f "humidity", (fun _ => "55.0") f)])))).map Prod.fst =
      "timestamp" :: "device_id" ::
        (["mean", "max"].flatMap (fun f => [fnKey f "temperature", fnKey f "humidity"])) :=
  shaped_record_fields_exact
    [("result", "_result"), ("table", "0"), ("_start", "2024-02-01T00:00:00Z"),
     ("_stop", "2024-02-02T00:00:00Z"), ("_time", "2024-02-02T00:00:00Z"),
     ("_measurement", "sensor_data"), ("device_id", "sensor_123"), ("_aggregate", "max")]
    ["mean", "max"] (fun _ => "18.5") (fun _ => "55.0") (by decide) (by decide)

end Brewing
